import Mathlib

/-! Verification of the option-resolution logic of the AIDL compiler front end
(`src/options.cpp`, `Options::Options` and `Options::GetUsage`). The argument
scanner models the observable behaviour of GNU `getopt_long` with the option
table and optstring `"I:p:d:o:h:abt"` of the source: flags are processed in
order of appearance, non-option tokens are collected (GNU permutation) and form
the positional tail, `--` ends flag scanning, a long option takes its value
from `=value` or from the next token, short options cluster and take the rest
of the token or the next token as value. Long-option abbreviation matching is
not modelled (every claim uses full option names), and the token shown by the
`Invalid argument` message approximates `argv[optind]` by the token being
scanned (no claim depends on that message's text). -/

namespace Aidl

/-- Target language, `Options::Language` (options.h declares JAVA and CPP). -/
inductive Language where
  | java
  | cpp
deriving DecidableEq, Repr

/-- Compiler task, `Options::Task`. -/
inductive Task where
  | unspecified
  | compile
  | preprocess
  | dumpapi
deriving DecidableEq, Repr

/-- The accumulated configuration: the fields of `class Options` that the
constructor in options.cpp writes, with `myname_` and the `error_message_`
stream modelled as strings. -/
structure Options where
  myname : String
  language : Language
  task : Task
  import_paths : List String
  preprocessed_files : List String
  dependency_file : String
  dependency_file_ninja : Bool
  output_dir : String
  output_header_dir : String
  output_file : String
  input_files : List String
  gen_traces : Bool
  auto_dep_file : Bool
  fail_on_parcelable : Bool
  gen_transaction_names : Bool
  error_message : String
deriving DecidableEq, Repr

/-- Modelled from the spec: the in-class field initializers live in options.h,
which is not among the given sources. The spec fixes every non-task field
(empty sequences and strings, false booleans, `language` from the caller
default); for `task` the behaviours the spec requires - the legacy branch is
taken when no language flag was seen (section 4.2), and `--preprocess` and
`--dumpapi` overwrite a task that is not UNSPECIFIED (section 4.1, kept
verbatim per section 9) yet `--dumpapi OUTPUT INPUT...` works (section 8) -
force the initial task to be COMPILE. -/
def initOptions (myname : String) (default_lang : Language) : Options :=
  { myname := myname
    language := default_lang
    task := Task.compile
    import_paths := []
    preprocessed_files := []
    dependency_file := ""
    dependency_file_ninja := false
    output_dir := ""
    output_header_dir := ""
    output_file := ""
    input_files := []
    gen_traces := false
    auto_dep_file := false
    fail_on_parcelable := false
    gen_transaction_names := false
    error_message := "" }

/-- `isspace` of the C locale, used by `android::base::Trim`. -/
def isCSpace (c : Char) : Bool :=
  c = ' ' || c = '\t' || c = '\n' || c = '\x0b' || c = '\x0c' || c = '\r'

/-- `android::base::Trim`: strip leading and trailing whitespace. -/
def trim (s : String) : String :=
  String.mk (((s.data.dropWhile isCSpace).reverse.dropWhile isCSpace).reverse)

/-- Appending to the `error_message_` ostringstream. -/
def addError (s : Options) (msg : String) : Options :=
  { s with error_message := s.error_message ++ msg }

/-- `android::base::EndsWith(input, ".aidl")` (line 256). -/
def endsWithAidl (f : String) : Bool :=
  ".aidl".data.isSuffixOf f.data

/-- `Options::GetUsage` (options.cpp lines 35-100): the usage text, chosen by
the program name and the current language. -/
def getUsage (myname : String) (language : Language) : String :=
  "usage:\n" ++
  (myname ++ " --lang=\x7bjava|cpp\x7d [OPTION]... INPUT...\n" ++
   "   Generate Java or C++ files for AIDL file(s).\n" ++
   "\n" ++
   myname ++ " --preprocess OUTPUT INPUT...\n" ++
   "   Create an AIDL file having declarations of AIDL file(s).\n" ++
   "\n" ++
   myname ++ " --dumpapi OUTPUT INPUT...\n" ++
   "   Dump API signature of AIDL file(s).\n" ++
   "\n" ++
   (match language with
    | Language.java =>
        myname ++ " [OPTION]... INPUT [OUTPUT]\n" ++
        "   Generate a Java file for an AIDL file.\n" ++
        "\n"
    | Language.cpp =>
        myname ++ " [OPTION]... INPUT HEADER_DIR OUTPUT\n" ++
        "   Generate C++ headers and source for an AIDL file.\n" ++
        "\n") ++
   "OPTION:\n" ++
   "  -I DIR, --include=DIR\n" ++
   "          Use DIR as a search path for import statements.\n" ++
   "  -p FILE, --preprocessed=FILE\n" ++
   "          Include FILE which is created by --preprocess.\n" ++
   "  -d FILE, --dep=FILE\n" ++
   "          Generate dependency file as FILE. Don't use this when\n" ++
   "          there are multiple input files. Use -a then.\n" ++
   "  -o DIR, --out=DIR\n" ++
   "          Use DIR as the base output directory for generated files.\n" ++
   "  -h DIR, --header_out=DIR\n" ++
   "          Generate C++ headers under DIR.\n" ++
   "  -a\n" ++
   "          Generate dependency file next to the output file with the\n" ++
   "          name based on the input file.\n" ++
   "  -b\n" ++
   "          Trigger fail when trying to compile a parcelable.\n" ++
   "  --ninja\n" ++
   "          Generate dependency file in a format ninja understands.\n" ++
   "  -t, --trace\n" ++
   "          Include tracing code for systrace. Note that if either\n" ++
   "          the client or service code is not auto-generated by this\n" ++
   "          tool, that part will not be traced.\n" ++
   "  --transaction_names\n" ++
   "          Generate transaction names.\n" ++
   "  --help\n" ++
   "          Show this help.\n" ++
   "\n" ++
   "INPUT:\n" ++
   "  An AIDL file.\n" ++
   "\n" ++
   "OUTPUT:\n" ++
   "  Path to the generated Java or C++ source file. This is ignored when\n" ++
   "  -o or --out is specified or the number of the input files are\n" ++
   "  more than one.\n" ++
   "  For Java, if omitted, Java source file is generated at the same\n" ++
   "  place as the input AIDL file,\n" ++
   "\n" ++
   "HEADER_DIR:\n" ++
   "  Path to where C++ headers are generated.\n")

/-- Result of applying one flag effect inside the `while` loop: `ok` continues
the loop, `halt` is the early `return` with an error recorded, `help` is the
`--help` branch (prints usage and calls `exit(0)`). -/
inductive FlagStep where
  | ok (s : Options)
  | halt (s : Options)
  | help (s : Options)
deriving DecidableEq, Repr

/-- `case 'l'` (options.cpp lines 130-150): refuse `--lang` when the language
is already CPP, otherwise set language and task from the trimmed value. -/
def langFlagEffect (s : Options) (optarg : String) : FlagStep :=
  if s.language = Language.cpp then
    FlagStep.halt (addError s "aidl-cpp does not support --lang.\n")
  else if trim optarg = "java" then
    FlagStep.ok { s with language := Language.java, task := Task.compile }
  else if trim optarg = "cpp" then
    FlagStep.ok { s with language := Language.cpp, task := Task.compile }
  else
    FlagStep.halt (addError s ("Unsupported language: '" ++ trim optarg ++ "'\n"))

/-- `case 's'` / `case 'u'` (lines 151-160): overwrite the task only when it
is not UNSPECIFIED. -/
def setTaskGuard (s : Options) (v : Task) : Options :=
  { s with task := if s.task ≠ Task.unspecified then v else s.task }

/-- `case 'I'` (line 162). -/
def addImportPath (s : Options) (v : String) : Options :=
  { s with import_paths := s.import_paths ++ [trim v] }

/-- `case 'p'` (line 165). -/
def addPreprocessed (s : Options) (v : String) : Options :=
  { s with preprocessed_files := s.preprocessed_files ++ [trim v] }

/-- `case 'd'` (line 168). -/
def setDependencyFile (s : Options) (v : String) : Options :=
  { s with dependency_file := trim v }

/-- `case 'o'` (line 171). -/
def setOutputDir (s : Options) (v : String) : Options :=
  { s with output_dir := trim v }

/-- `case 'h'` (line 174). -/
def setOutputHeaderDir (s : Options) (v : String) : Options :=
  { s with output_header_dir := trim v }

/-- `case 'n'` (line 177). -/
def setNinja (s : Options) : Options :=
  { s with dependency_file_ninja := true }

/-- `case 't'` (line 180). -/
def setTrace (s : Options) : Options :=
  { s with gen_traces := true }

/-- `case 'a'` (line 183). -/
def setAutoDep (s : Options) : Options :=
  { s with auto_dep_file := true }

/-- `case 'b'` (line 186). -/
def setFailParcelable (s : Options) : Options :=
  { s with fail_on_parcelable := true }

/-- `case 'c'` (line 189). -/
def setTransactionNames (s : Options) : Options :=
  { s with gen_transaction_names := true }

/-- The `switch (c)` of options.cpp lines 129-197. `optarg` is the value
getopt extracted for the option, `curTok` the token being scanned (used by the
`default:` diagnostic in place of `argv[optind]`). -/
def applyFlag (s : Options) (c : Char) (optarg : String) (curTok : String) : FlagStep :=
  if c = 'l' then langFlagEffect s optarg
  else if c = 's' then FlagStep.ok (setTaskGuard s Task.preprocess)
  else if c = 'u' then FlagStep.ok (setTaskGuard s Task.dumpapi)
  else if c = 'I' then FlagStep.ok (addImportPath s optarg)
  else if c = 'p' then FlagStep.ok (addPreprocessed s optarg)
  else if c = 'd' then FlagStep.ok (setDependencyFile s optarg)
  else if c = 'o' then FlagStep.ok (setOutputDir s optarg)
  else if c = 'h' then FlagStep.ok (setOutputHeaderDir s optarg)
  else if c = 'n' then FlagStep.ok (setNinja s)
  else if c = 't' then FlagStep.ok (setTrace s)
  else if c = 'a' then FlagStep.ok (setAutoDep s)
  else if c = 'b' then FlagStep.ok (setFailParcelable s)
  else if c = 'c' then FlagStep.ok (setTransactionNames s)
  else if c = 'e' then FlagStep.help s
  else FlagStep.halt (addError s ("Invalid argument: '" ++ curTok ++ "'\n"))

/-- Split the characters of a long option after the leading `--` at the first
`=`: the option name, and the attached value when one is present. -/
def splitLong : List Char → List Char × Option (List Char)
  | [] => ([], none)
  | c :: rest =>
    if c = '=' then ([], some rest)
    else
      let r := splitLong rest
      (c :: r.1, r.2)

/-- The `long_options` table (options.cpp lines 107-121): whether the option
takes a required argument, and its `val` character. -/
def lookupLong (name : List Char) : Option (Bool × Char) :=
  if name = "lang".data then some (true, 'l')
  else if name = "preprocess".data then some (false, 's')
  else if name = "dumpapi".data then some (false, 'u')
  else if name = "include".data then some (true, 'I')
  else if name = "preprocessed".data then some (true, 'p')
  else if name = "dep".data then some (true, 'd')
  else if name = "out".data then some (true, 'o')
  else if name = "header_out".data then some (true, 'h')
  else if name = "ninja".data then some (false, 'n')
  else if name = "trace".data then some (false, 't')
  else if name = "transaction_names".data then some (false, 'c')
  else if name = "help".data then some (false, 'e')
  else none

/-- The optstring `"I:p:d:o:h:abt"`: whether a short option exists and whether
it takes a required argument. -/
def lookupShort (c : Char) : Option Bool :=
  if c = 'I' then some true
  else if c = 'p' then some true
  else if c = 'd' then some true
  else if c = 'o' then some true
  else if c = 'h' then some true
  else if c = 'a' then some false
  else if c = 'b' then some false
  else if c = 't' then some false
  else none

/-- Outcome of scanning one cluster of short options (one `-xyz` token). -/
inductive ShortOut where
  | more (s : Options)
  | needArg (c : Char) (s : Options)
  | halted (s : Options)
  | helped (s : Options)
deriving DecidableEq, Repr

/-- Scan the characters of a short-option cluster. An option that takes an
argument consumes the rest of the token, or asks for the next token
(`needArg`) when the cluster ends there; an unknown character is getopt
returning `?`, which runs the `default:` case of the switch. -/
def runShort (s : Options) (curTok : String) : List Char → ShortOut
  | [] => ShortOut.more s
  | c :: cs =>
    match lookupShort c with
    | some true =>
      match cs with
      | [] => ShortOut.needArg c s
      | _ :: _ =>
        match applyFlag s c (String.mk cs) curTok with
        | FlagStep.ok s' => ShortOut.more s'
        | FlagStep.halt s' => ShortOut.halted s'
        | FlagStep.help s' => ShortOut.helped s'
    | some false =>
      match applyFlag s c "" curTok with
      | FlagStep.ok s' => runShort s' curTok cs
      | FlagStep.halt s' => ShortOut.halted s'
      | FlagStep.help s' => ShortOut.helped s'
    | none =>
      match applyFlag s '?' "" curTok with
      | FlagStep.ok s' => ShortOut.more s'
      | FlagStep.halt s' => ShortOut.halted s'
      | FlagStep.help s' => ShortOut.helped s'

/-- `output_file_.replace(output_file_.length() - strlen(".aidl"),
strlen(".aidl"), ".java")` (options.cpp line 215). `std::string::replace`
computes the position in `size_t`; for a string shorter than 5 the subtraction
wraps past the end and the call throws `std::out_of_range` (modelled as
`none`). No check that the string actually ends in `.aidl` is made: the last
five characters are replaced blindly. -/
def replaceDotAidl (out : String) : Option String :=
  if 5 ≤ out.data.length then
    some (String.mk (out.data.take (out.data.length - 5) ++ ".java".data))
  else none

/-- The `Too many arguments` report (options.cpp lines 226-232): written only
when positional tokens are left over, one leading space before each token. -/
def tooManyArgs (s : Options) (rest : List String) : Options :=
  match rest with
  | [] => s
  | _ :: _ =>
    addError s ("Too many arguments: " ++ String.join (rest.map (fun a => " " ++ a)) ++ "\n")

/-- The `for` loop of options.cpp lines 255-260: the first input file that
does not end in `.aidl`, if any (the loop returns on the first offender). -/
def firstBadInput : List String → Option String
  | [] => none
  | f :: rest => if endsWithAidl f then firstBadInput rest else some f

/-- The directory and cardinality checks of options.cpp lines 261-297, run
after the input-extension loop found no offender: each failing check records
an error and returns. -/
def dirAndDepChecks (s : Options) : Options :=
  if s.language = Language.cpp ∧ s.task = Task.compile ∧ s.output_dir = "" then
      addError s "Output directory is not set. Set with --out.\n"
    else if s.language = Language.cpp ∧ s.task = Task.compile ∧ s.output_header_dir = "" then
      addError s "Header output directory is not set. Set with --header_out.\n"
    else if s.language = Language.java ∧ s.task = Task.compile ∧ s.output_dir = "" then
      addError s "Output directory is not set. Set with --out.\n"
    else if s.language = Language.java ∧ s.task = Task.compile ∧ s.output_header_dir ≠ "" then
      addError s "Header output directory is set, which does not make sense for Java.\n"
    else if s.task = Task.compile ∧ s.output_file ≠ "" ∧ s.input_files.length > 1 then
      addError s ("Multiple AIDL files can't be compiled to a single output file '"
        ++ s.output_file ++ "'. Use --out=DIR instead for output files.\n")
    else if s.task = Task.compile ∧ s.dependency_file ≠ "" ∧ s.input_files.length > 1 then
      addError s ("-d or --dep doesn't work when compiling multiple AIDL files. Use '-a' to generate dependency file next to the output file with the name based on the input file.\n")
    else s

/-- The `filter out invalid combinations` section (options.cpp lines 254-297):
the input-extension loop, then the directory and cardinality checks. Reached
only through the modern branch (the legacy branch returns at line 233). -/
def validate (s : Options) : Options :=
  match firstBadInput s.input_files with
  | some bad => addError s ("Expected .aidl file for input but got '" ++ bad ++ "'\n")
  | none => dirAndDepChecks s

/-- Outcome of the whole constructor: `exited` is the `--help` `exit(0)` with
the usage text it printed, `crashed` the uncaught `std::out_of_range` of the
legacy Java output substitution, `conf` the constructed object (valid when its
`error_message` is empty). -/
inductive ParseResult where
  | exited (usage : String)
  | crashed
  | conf (s : Options)
deriving DecidableEq, Repr

/-- The positional-argument section (options.cpp lines 200-299): legacy branch
when no `--lang` was seen and the task is COMPILE (it returns at line 233
without running `validate`), modern branch otherwise, followed by `validate`. -/
def finishParse (s : Options) (lang_option_found : Bool) (pos : List String) : ParseResult :=
  if lang_option_found = false ∧ s.task = Task.compile then
    match pos with
    | [] => ParseResult.conf (addError s "No input file\n")
    | f :: rest =>
      match s.language with
      | Language.java =>
        let s1 := { s with input_files := s.input_files ++ [f] }
        match rest with
        | o :: rest2 => ParseResult.conf (tooManyArgs { s1 with output_file := o } rest2)
        | [] =>
          match replaceDotAidl (s1.input_files.headD "") with
          | some o => ParseResult.conf { s1 with output_file := o }
          | none => ParseResult.crashed
      | Language.cpp =>
        let s1 := { s with input_files := s.input_files ++ [f] }
        match rest with
        | h :: o :: rest2 =>
          ParseResult.conf (tooManyArgs { s1 with output_header_dir := h, output_file := o } rest2)
        | _ => ParseResult.conf (addError s1 "No HEADER_DIR or OUTPUT.\n")
  else
    if s.task = Task.compile then
      match pos with
      | [] => ParseResult.conf (addError s "No input file.\n")
      | _ :: _ => ParseResult.conf (validate { s with input_files := s.input_files ++ pos })
    else
      match pos with
      | o :: i :: irest =>
        ParseResult.conf (validate { s with output_file := o, input_files := s.input_files ++ i :: irest })
      | _ =>
        ParseResult.conf (addError s
          ("Insufficient arguments. At least 2 required, but got " ++ toString pos.length ++ ".\n"))

/-- The getopt loop (options.cpp lines 106-198). `lf` is the local
`lang_option_found`, `skipped` the non-option tokens collected so far in
reverse (GNU permutation leaves them, in order, as the positional tail), and
`pending` an option character still waiting for its required argument, which
getopt takes from the next token (paired with the flag token for the
`default:` diagnostic). A missing argument at the end of the vector makes
getopt return `?`, running the `default:` case. -/
def scan (s : Options) (lf : Bool) (pending : Option (Char × String)) (skipped : List String) :
    List String → ParseResult
  | [] =>
    match pending with
    | some (_, ftok) =>
      match applyFlag s '?' "" ftok with
      | FlagStep.ok s' => finishParse s' lf skipped.reverse
      | FlagStep.halt s' => ParseResult.conf s'
      | FlagStep.help s' => ParseResult.exited (getUsage s'.myname s'.language)
    | none => finishParse s lf skipped.reverse
  | tok :: rest =>
    match pending with
    | some (c3, ftok) =>
      match applyFlag s c3 tok ftok with
      | FlagStep.ok s' => scan s' (lf || (c3 = 'l')) none skipped rest
      | FlagStep.halt s' => ParseResult.conf s'
      | FlagStep.help s' => ParseResult.exited (getUsage s'.myname s'.language)
    | none =>
      match tok.data with
      | [] => scan s lf none (tok :: skipped) rest
      | c :: cs =>
        if c = '-' then
          match cs with
          | [] => scan s lf none (tok :: skipped) rest
          | c2 :: cs2 =>
            if c2 = '-' then
              match cs2 with
              | [] => finishParse s lf (skipped.reverse ++ rest)
              | d :: ds =>
                let parts := splitLong (d :: ds)
                match lookupLong parts.1 with
                | none =>
                  match applyFlag s '?' "" tok with
                  | FlagStep.ok s' => scan s' lf none skipped rest
                  | FlagStep.halt s' => ParseResult.conf s'
                  | FlagStep.help s' => ParseResult.exited (getUsage s'.myname s'.language)
                | some (hasArg, c3) =>
                  match hasArg, parts.2 with
                  | true, some v =>
                    match applyFlag s c3 (String.mk v) tok with
                    | FlagStep.ok s' => scan s' (lf || (c3 = 'l')) none skipped rest
                    | FlagStep.halt s' => ParseResult.conf s'
                    | FlagStep.help s' => ParseResult.exited (getUsage s'.myname s'.language)
                  | true, none => scan s lf (some (c3, tok)) skipped rest
                  | false, some _ =>
                    match applyFlag s '?' "" tok with
                    | FlagStep.ok s' => scan s' lf none skipped rest
                    | FlagStep.halt s' => ParseResult.conf s'
                    | FlagStep.help s' => ParseResult.exited (getUsage s'.myname s'.language)
                  | false, none =>
                    match applyFlag s c3 "" tok with
                    | FlagStep.ok s' => scan s' (lf || (c3 = 'l')) none skipped rest
                    | FlagStep.halt s' => ParseResult.conf s'
                    | FlagStep.help s' => ParseResult.exited (getUsage s'.myname s'.language)
            else
              match runShort s tok (c2 :: cs2) with
              | ShortOut.more s' => scan s' lf none skipped rest
              | ShortOut.halted s' => ParseResult.conf s'
              | ShortOut.helped s' => ParseResult.exited (getUsage s'.myname s'.language)
              | ShortOut.needArg c3 s' => scan s' lf (some (c3, tok)) skipped rest
        else scan s lf none (tok :: skipped) rest

/-- `Options::Options(argc, argv, default_lang)`: `argv[0]` is the program
name, scanning starts at `optind = 1`. -/
def Options.parse (myname : String) (args : List String) (default_lang : Language) : ParseResult :=
  scan (initOptions myname default_lang) false none [] args

/-- The error text carried by a constructed (non-exited) result. -/
def ParseResult.errorOf : ParseResult → String
  | ParseResult.conf s => s.error_message
  | _ => ""

/-- The constructed configuration, when the constructor returned one. -/
def ParseResult.getConf : ParseResult → Option Options
  | ParseResult.conf s => some s
  | _ => none

/-- Whether the process terminated through the `--help` `exit(0)`. -/
def ParseResult.isExit : ParseResult → Bool
  | ParseResult.exited _ => true
  | _ => false

/-- The `input_files_` of a constructed result. -/
def ParseResult.inputsOf : ParseResult → List String
  | ParseResult.conf s => s.input_files
  | _ => []

/-- The `output_file_` of a constructed result. -/
def ParseResult.outputFileOf : ParseResult → String
  | ParseResult.conf s => s.output_file
  | _ => ""

theorem data_append (a b : String) : (a ++ b).data = a.data ++ b.data := by
  cases a; cases b; rfl

theorem eq_of_data_eq (a b : String) (h : a.data = b.data) : a = b :=
  congrArg String.mk h

theorem append_ne_empty_right (a b : String) (hb : b.data ≠ []) : a ++ b ≠ "" := by
  intro h
  have hd := congrArg String.data h
  rw [data_append] at hd
  exact hb (List.append_eq_nil.mp hd).2

theorem append_left_cancel_str (a b c : String) (h : a ++ b = a ++ c) : b = c := by
  have hd := congrArg String.data h
  rw [data_append, data_append] at hd
  exact eq_of_data_eq _ _ (List.append_cancel_left hd)

theorem addError_ne_empty (s : Options) (m : String) (hm : m.data ≠ []) :
    (addError s m).error_message ≠ "" :=
  append_ne_empty_right _ _ hm

theorem firstBadInput_none {l : List String} (h : firstBadInput l = none) :
    ∀ f ∈ l, endsWithAidl f = true := by
  induction l with
  | nil => intro f hf; cases hf
  | cons a t ih =>
    intro f hf
    by_cases ha : endsWithAidl a
    · rcases List.mem_cons.mp hf with rfl | hf'
      · exact ha
      · exact ih (by simpa [firstBadInput, ha] using h) f hf'
    · simp [firstBadInput, ha] at h

theorem replaceDotAidl_aidl (b : String) :
    replaceDotAidl (b ++ ".aidl") = some (b ++ ".java") := by
  unfold replaceDotAidl
  rw [data_append]
  have hlen : (b.data ++ ".aidl".data).length = b.data.length + 5 := by
    simp [List.length_append]
  rw [hlen, if_pos (by omega)]
  congr 1
  apply eq_of_data_eq
  have h5 : b.data.length + 5 - 5 = b.data.length := by omega
  rw [h5]
  show (b.data ++ ".aidl".data).take b.data.length ++ ".java".data = (b ++ ".java").data
  rw [List.take_left, data_append]

theorem getUsage_ne_empty (m : String) (l : Language) : getUsage m l ≠ "" := by
  intro h
  have hd := congrArg String.data h
  rw [getUsage.eq_def, data_append] at hd
  exact absurd (List.append_eq_nil.mp hd).1 (by decide)

theorem dirAndDepChecks_err (s' : Options) (h : (dirAndDepChecks s').error_message = "") :
    dirAndDepChecks s' = s' := by
  unfold dirAndDepChecks at h ⊢
  split_ifs at h ⊢ <;>
    first
      | rfl
      | exact absurd h (addError_ne_empty _ _ (by decide))
      | exact absurd h (addError_ne_empty _ _ (by simp [data_append]))

theorem validate_err (s' : Options) (h : (validate s').error_message = "") : validate s' = s' := by
  unfold validate at h ⊢
  revert h
  cases hb : firstBadInput s'.input_files with
  | some bad =>
    intro h
    exact absurd h (addError_ne_empty _ _ (by simp [data_append]))
  | none =>
    intro h
    exact dirAndDepChecks_err s' h

theorem validate_inputs_ok (s' : Options) (h : (validate s').error_message = "") :
    firstBadInput s'.input_files = none := by
  unfold validate at h
  revert h
  cases hb : firstBadInput s'.input_files with
  | some bad =>
    intro h
    exact absurd h (addError_ne_empty _ _ (by simp [data_append]))
  | none => intro h; rfl

theorem scan_pending_step (s : Options) (lf : Bool) (c : Char) (ftok tok : String)
    (sk rest : List String) :
    scan s lf (some (c, ftok)) sk (tok :: rest) =
      match applyFlag s c tok ftok with
      | FlagStep.ok s' => scan s' (lf || decide (c = 'l')) none sk rest
      | FlagStep.halt s' => ParseResult.conf s'
      | FlagStep.help s' => ParseResult.exited (getUsage s'.myname s'.language) := rfl

theorem lang_preserved (s : Options) (c : Char) (a t : String) (s' : Options) (hc : c ≠ 'l')
    (hor : applyFlag s c a t = FlagStep.ok s' ∨ applyFlag s c a t = FlagStep.halt s') :
    s'.language = s.language := by
  by_cases h1 : c = 's'
  · subst h1
    rcases hor with h' | h'
    · have hx := FlagStep.ok.inj h'; subst hx; rfl
    · exact FlagStep.noConfusion h'
  by_cases h2 : c = 'u'
  · subst h2
    rcases hor with h' | h'
    · have hx := FlagStep.ok.inj h'; subst hx; rfl
    · exact FlagStep.noConfusion h'
  by_cases h3 : c = 'I'
  · subst h3
    rcases hor with h' | h'
    · have hx := FlagStep.ok.inj h'; subst hx; rfl
    · exact FlagStep.noConfusion h'
  by_cases h4 : c = 'p'
  · subst h4
    rcases hor with h' | h'
    · have hx := FlagStep.ok.inj h'; subst hx; rfl
    · exact FlagStep.noConfusion h'
  by_cases h5 : c = 'd'
  · subst h5
    rcases hor with h' | h'
    · have hx := FlagStep.ok.inj h'; subst hx; rfl
    · exact FlagStep.noConfusion h'
  by_cases h6 : c = 'o'
  · subst h6
    rcases hor with h' | h'
    · have hx := FlagStep.ok.inj h'; subst hx; rfl
    · exact FlagStep.noConfusion h'
  by_cases h7 : c = 'h'
  · subst h7
    rcases hor with h' | h'
    · have hx := FlagStep.ok.inj h'; subst hx; rfl
    · exact FlagStep.noConfusion h'
  by_cases h8 : c = 'n'
  · subst h8
    rcases hor with h' | h'
    · have hx := FlagStep.ok.inj h'; subst hx; rfl
    · exact FlagStep.noConfusion h'
  by_cases h9 : c = 't'
  · subst h9
    rcases hor with h' | h'
    · have hx := FlagStep.ok.inj h'; subst hx; rfl
    · exact FlagStep.noConfusion h'
  by_cases h10 : c = 'a'
  · subst h10
    rcases hor with h' | h'
    · have hx := FlagStep.ok.inj h'; subst hx; rfl
    · exact FlagStep.noConfusion h'
  by_cases h11 : c = 'b'
  · subst h11
    rcases hor with h' | h'
    · have hx := FlagStep.ok.inj h'; subst hx; rfl
    · exact FlagStep.noConfusion h'
  by_cases h12 : c = 'c'
  · subst h12
    rcases hor with h' | h'
    · have hx := FlagStep.ok.inj h'; subst hx; rfl
    · exact FlagStep.noConfusion h'
  by_cases h13 : c = 'e'
  · subst h13
    rcases hor with h' | h'
    · exact FlagStep.noConfusion h'
    · exact FlagStep.noConfusion h'
  rw [applyFlag, if_neg hc, if_neg h1, if_neg h2, if_neg h3, if_neg h4, if_neg h5, if_neg h6,
    if_neg h7, if_neg h8, if_neg h9, if_neg h10, if_neg h11, if_neg h12, if_neg h13] at hor
  rcases hor with h' | h'
  · exact FlagStep.noConfusion h'
  · have hx := FlagStep.halt.inj h'; subst hx; rfl

/-- C1 (amended): every Configuration constructed error-free through the
modern branch (a language flag was found, or the task is not COMPILE) has all
of its input files ending in the source extension `.aidl`; the legacy
positional branch returns before the extension check and is exempt. -/
theorem aidl_modern_inputs_have_aidl_suffix (s : Options) (lf : Bool) (pos : List String)
    (o : Options) (hmodern : lf = true ∨ s.task ≠ Task.compile)
    (hres : finishParse s lf pos = ParseResult.conf o)
    (herr : o.error_message = "") :
    ∀ f ∈ o.input_files, endsWithAidl f = true := by
  have hcond : ¬(lf = false ∧ s.task = Task.compile) := by
    rintro ⟨h1, h2⟩
    rcases hmodern with h | h
    · rw [h] at h1; exact Bool.noConfusion h1
    · exact h h2
  rw [finishParse.eq_def, if_neg hcond] at hres
  by_cases ht : s.task = Task.compile
  · rw [if_pos ht] at hres
    cases pos with
    | nil =>
      have hx := ParseResult.conf.inj hres
      rw [← hx] at herr
      exact absurd herr (addError_ne_empty _ _ (by decide))
    | cons p ps =>
      have hx := ParseResult.conf.inj hres
      rw [← hx] at herr
      have h1 := validate_err _ herr
      have h2 := validate_inputs_ok _ herr
      rw [← hx, h1]
      exact firstBadInput_none h2
  · rw [if_neg ht] at hres
    match pos, hres with
    | [], hres =>
      have hx := ParseResult.conf.inj hres
      rw [← hx] at herr
      exact absurd herr (addError_ne_empty _ _ (by simp [data_append]))
    | [o1], hres =>
      have hx := ParseResult.conf.inj hres
      rw [← hx] at herr
      exact absurd herr (addError_ne_empty _ _ (by simp [data_append]))
    | o1 :: i1 :: irest, hres =>
      have hx := ParseResult.conf.inj hres
      rw [← hx] at herr
      have h1 := validate_err _ herr
      have h2 := validate_inputs_ok _ herr
      rw [← hx, h1]
      exact firstBadInput_none h2

/-- Witness for C1: the amended theorem applied at a concrete modern-branch
invocation whose construction succeeds. -/
theorem aidl_modern_inputs_have_aidl_suffix_witness : endsWithAidl "A.aidl" = true :=
  aidl_modern_inputs_have_aidl_suffix
    { initOptions "aidl" Language.java with output_dir := "out" } true ["A.aidl"]
    { initOptions "aidl" Language.java with output_dir := "out", input_files := ["A.aidl"] }
    (Or.inl rfl) (by decide) (by decide) "A.aidl" (by decide)

/-- Counterexample for C1 as frozen: the legacy positional branch returns
before the extension check, so the vector `[Foo.txt]` with caller default
JAVA constructs a valid (error-free) Configuration whose input file does not
end in `.aidl`. -/
theorem aidl_legacy_skips_suffix_check_cex :
    Options.parse "aidl" ["Foo.txt"] Language.java =
      ParseResult.conf { initOptions "aidl" Language.java with
        input_files := ["Foo.txt"], output_file := "Fo.java" }
  ∧ endsWithAidl "Foo.txt" = false := by
  exact ⟨by decide, by decide⟩

/-- C2: processing `--preprocess` overwrites the task with PREPROCESS only
when the task is already something other than UNSPECIFIED, and leaves the
task unchanged when it equals UNSPECIFIED; `--dumpapi` behaves identically
with DUMPAPI. Stated both at the scanner step and at the switch case. -/
theorem aidl_preprocess_dumpapi_guard (s : Options) (lf : Bool) (sk rest : List String)
    (a t : String) :
    scan s lf none sk ("--preprocess" :: rest)
      = scan { s with task := if s.task ≠ Task.unspecified then Task.preprocess else s.task }
          lf none sk rest
  ∧ scan s lf none sk ("--dumpapi" :: rest)
      = scan { s with task := if s.task ≠ Task.unspecified then Task.dumpapi else s.task }
          lf none sk rest
  ∧ applyFlag s 's' a t
      = FlagStep.ok { s with task := if s.task ≠ Task.unspecified then Task.preprocess else s.task }
  ∧ applyFlag s 'u' a t
      = FlagStep.ok { s with task := if s.task ≠ Task.unspecified then Task.dumpapi else s.task }
  ∧ (s.task = Task.unspecified →
      applyFlag s 's' a t = FlagStep.ok s ∧ applyFlag s 'u' a t = FlagStep.ok s) := by
  refine ⟨by cases lf <;> rfl, by cases lf <;> rfl, rfl, rfl, ?_⟩
  intro h
  have hp : (if s.task ≠ Task.unspecified then Task.preprocess else s.task) = s.task := by
    simp [h]
  have hu : (if s.task ≠ Task.unspecified then Task.dumpapi else s.task) = s.task := by
    simp [h]
  constructor
  · show FlagStep.ok { s with task := if s.task ≠ Task.unspecified then Task.preprocess else s.task }
        = FlagStep.ok s
    rw [hp]
  · show FlagStep.ok { s with task := if s.task ≠ Task.unspecified then Task.dumpapi else s.task }
        = FlagStep.ok s
    rw [hu]

/-- Witness for C2: with the initial task COMPILE the flag does write
PREPROCESS, and with task UNSPECIFIED it leaves the task unchanged. -/
theorem aidl_preprocess_dumpapi_guard_witness :
    applyFlag (initOptions "aidl" Language.java) 's' "" "x"
        = FlagStep.ok { initOptions "aidl" Language.java with task := Task.preprocess }
  ∧ applyFlag { initOptions "aidl" Language.java with task := Task.unspecified } 's' "" "x"
      = FlagStep.ok { initOptions "aidl" Language.java with task := Task.unspecified } := by
  constructor
  · exact ((aidl_preprocess_dumpapi_guard (initOptions "aidl" Language.java)
      false [] [] "" "x").2.2.1).trans (by decide)
  · exact ((aidl_preprocess_dumpapi_guard
      { initOptions "aidl" Language.java with task := Task.unspecified }
      false [] [] "" "x").2.2.2.2 rfl).1

/-- C3: for any caller default language, `--dumpapi sigs.txt A.aidl B.aidl`
constructs successfully with task DUMPAPI, output file `sigs.txt` and inputs
`[A.aidl, B.aidl]` in order, while `--dumpapi sigs.txt` alone fails with the
missing-positional error reporting the count of remaining tokens. -/
theorem aidl_dumpapi_vectors (lang : Language) :
    Options.parse "aidl" ["--dumpapi", "sigs.txt", "A.aidl", "B.aidl"] lang =
      ParseResult.conf { initOptions "aidl" lang with
        task := Task.dumpapi,
        output_file := "sigs.txt",
        input_files := ["A.aidl", "B.aidl"] }
  ∧ (Options.parse "aidl" ["--dumpapi", "sigs.txt"] lang).errorOf =
      "Insufficient arguments. At least 2 required, but got 1.\n" := by
  cases lang <;> exact ⟨by decide, by decide⟩

/-- C4 (amended): processing `--lang` produces the override error exactly
when the language state is CPP at that moment; with a JAVA caller default
that happens only after an earlier `--lang cpp` set the language to CPP. -/
theorem aidl_lang_override_iff_cpp_state (s : Options) (a t : String) :
    applyFlag s 'l' a t
        = FlagStep.halt (addError s "aidl-cpp does not support --lang.\n")
      ↔ s.language = Language.cpp := by
  have he : applyFlag s 'l' a t = langFlagEffect s a := rfl
  rw [he]
  constructor
  · intro h
    cases hs : s.language
    case cpp => rfl
    case java =>
    exfalso
    rw [langFlagEffect, hs, if_neg (by decide)] at h
    split_ifs at h with h1 h2
    have hm : (addError s ("Unsupported language: '" ++ trim a ++ "'\n")).error_message
        = (addError s "aidl-cpp does not support --lang.\n").error_message := by
      rw [FlagStep.halt.inj h]
    simp only [addError] at hm
    have hmm := append_left_cancel_str _ _ _ hm
    have hd := congrArg (fun x => x.data.head?) hmm
    simp only [data_append] at hd
    simp at hd
  · intro h
    rw [langFlagEffect, if_pos h]

/-- Witness for C4: the amended characterization applied at a CPP state. -/
theorem aidl_lang_override_iff_cpp_state_witness :
    applyFlag (initOptions "aidl" Language.cpp) 'l' "java" "--lang=java"
      = FlagStep.halt (addError (initOptions "aidl" Language.cpp)
          "aidl-cpp does not support --lang.\n") :=
  (aidl_lang_override_iff_cpp_state (initOptions "aidl" Language.cpp) "java" "--lang=java").mpr rfl

/-- Counterexample for C4 as frozen: with caller default JAVA, the vector
`[--lang=cpp, --lang=java]` does produce the override error - the first flag
sets the language to CPP, so the second hits the CPP guard. -/
theorem aidl_lang_twice_java_default_cex :
    (Options.parse "aidl" ["--lang=cpp", "--lang=java"] Language.java).errorOf
      = "aidl-cpp does not support --lang.\n" := by
  decide

/-- C5: when the language state is CPP (with caller default CPP it stays CPP:
no switch case but `l` ever writes the language, and that case halts), any
processed `--lang` flag halts construction with a non-empty error whatever
value is supplied - attached, as the next token, or missing. -/
theorem aidl_lang_under_cpp_default_fails (s : Options) (lf : Bool) (sk : List String)
    (v : String) (rest : List String) (h : s.language = Language.cpp) :
    scan s lf none sk ("--lang" :: v :: rest)
      = ParseResult.conf (addError s "aidl-cpp does not support --lang.\n")
  ∧ scan s lf none sk (("--lang=" ++ v) :: rest)
      = ParseResult.conf (addError s "aidl-cpp does not support --lang.\n")
  ∧ scan s lf none sk ["--lang"] = ParseResult.conf (addError s "Invalid argument: '--lang'\n")
  ∧ (addError s "aidl-cpp does not support --lang.\n").error_message ≠ ""
  ∧ (∀ c a t s', c ≠ 'l' →
      (applyFlag s c a t = FlagStep.ok s' ∨ applyFlag s c a t = FlagStep.halt s') →
      s'.language = s.language) := by
  have ha : ∀ a t : String, applyFlag s 'l' a t
      = FlagStep.halt (addError s "aidl-cpp does not support --lang.\n") := by
    intro a t
    simp [applyFlag, langFlagEffect, h]
  refine ⟨?_, ?_, rfl, addError_ne_empty _ _ (by decide), ?_⟩
  · have h1 : scan s lf none sk ("--lang" :: v :: rest)
        = scan s lf (some ('l', "--lang")) sk (v :: rest) := rfl
    rw [h1, scan_pending_step, ha]
  · have h2 : scan s lf none sk (("--lang=" ++ v) :: rest) =
        match applyFlag s 'l' v ("--lang=" ++ v) with
        | FlagStep.ok s' => scan s' (lf || decide (('l' : Char) = 'l')) none sk rest
        | FlagStep.halt s' => ParseResult.conf s'
        | FlagStep.help s' => ParseResult.exited (getUsage s'.myname s'.language) := rfl
    rw [h2, ha]
  · exact fun c a t s' hc hor => lang_preserved s c a t s' hc hor

/-- Witness for C5: the two-token form at the initial CPP-default state. -/
theorem aidl_lang_under_cpp_default_fails_witness :
    scan (initOptions "aidl" Language.cpp) false none [] ["--lang", "java"]
      = ParseResult.conf (addError (initOptions "aidl" Language.cpp)
          "aidl-cpp does not support --lang.\n") :=
  (aidl_lang_under_cpp_default_fails (initOptions "aidl" Language.cpp) false [] "java" [] rfl).1

/-- C6: in the legacy branch with language JAVA (no lang flag, task COMPILE),
exactly one positional token becomes the single input file; a second token
becomes the output file; with no second token the output file is the input
path with its `.aidl` suffix replaced by `.java` (`Foo.aidl` gives
`Foo.java`). -/
theorem aidl_legacy_java_positionals (s : Options) (i o2 b : String)
    (htask : s.task = Task.compile) (hlang : s.language = Language.java)
    (hin : s.input_files = []) :
    finishParse s false [i, o2]
      = ParseResult.conf { s with input_files := [i], output_file := o2 }
  ∧ finishParse s false [b ++ ".aidl"] =
      ParseResult.conf { s with input_files := [b ++ ".aidl"], output_file := b ++ ".java" }
  ∧ Options.parse "aidl" ["Foo.aidl"] Language.java =
      ParseResult.conf { initOptions "aidl" Language.java with
        input_files := ["Foo.aidl"], output_file := "Foo.java" } := by
  refine ⟨?_, ?_, by decide⟩
  · simp [finishParse, htask, hlang, hin, tooManyArgs]
  · simp [finishParse, htask, hlang, hin, replaceDotAidl_aidl]

/-- Witness for C6: the derived-output form at the initial JAVA-default
state. -/
theorem aidl_legacy_java_positionals_witness :
    Options.parse "aidl" ["Foo.aidl"] Language.java =
      ParseResult.conf { initOptions "aidl" Language.java with
        input_files := ["Foo.aidl"], output_file := "Foo.java" } :=
  (aidl_legacy_java_positionals (initOptions "aidl" Language.java) "x" "y" "z"
    rfl rfl rfl).2.2

/-- C7: in the legacy branch with language CPP, the positional tail
`[Foo.aidl, HeaderDir, OutDir]` resolves to that input, header directory and
output file; with fewer than two tokens after the input file, construction
fails with the `No HEADER_DIR or OUTPUT.` error. -/
theorem aidl_legacy_cpp_positionals (s : Options) (f hd outp : String)
    (htask : s.task = Task.compile) (hlang : s.language = Language.cpp)
    (hin : s.input_files = []) :
    finishParse s false [f, hd, outp] = ParseResult.conf
      { s with input_files := [f], output_header_dir := hd, output_file := outp }
  ∧ finishParse s false [f] =
      ParseResult.conf (addError { s with input_files := [f] } "No HEADER_DIR or OUTPUT.\n")
  ∧ finishParse s false [f, hd] =
      ParseResult.conf (addError { s with input_files := [f] } "No HEADER_DIR or OUTPUT.\n")
  ∧ (Options.parse "aidl" ["Foo.aidl", "HeaderDir", "OutDir"] Language.cpp).getConf =
      some { initOptions "aidl" Language.cpp with
        input_files := ["Foo.aidl"], output_header_dir := "HeaderDir", output_file := "OutDir" }
  ∧ (Options.parse "aidl" ["Foo.aidl", "HeaderDir"] Language.cpp).errorOf
      = "No HEADER_DIR or OUTPUT.\n" := by
  refine ⟨?_, ?_, ?_, by decide, by decide⟩
  · simp [finishParse, htask, hlang, hin, tooManyArgs]
  · simp [finishParse, htask, hlang, hin]
  · simp [finishParse, htask, hlang, hin]

/-- Witness for C7: the three-token legacy CPP form at the initial
CPP-default state. -/
theorem aidl_legacy_cpp_positionals_witness :
    (Options.parse "aidl" ["Foo.aidl", "HeaderDir", "OutDir"] Language.cpp).getConf =
      some { initOptions "aidl" Language.cpp with
        input_files := ["Foo.aidl"], output_header_dir := "HeaderDir",
        output_file := "OutDir" } :=
  (aidl_legacy_cpp_positionals (initOptions "aidl" Language.cpp) "x" "y" "z"
    rfl rfl rfl).2.2.2.1

/-- C8 (amended): whenever flag scanning reaches a `--help` token, the
process prints the non-empty usage text and exits successfully, regardless of
the remaining tokens; a flag before `--help` whose processing records an
error returns first, so `--help` is then never reached. -/
theorem aidl_help_scan_exits (s : Options) (lf : Bool) (sk rest : List String) :
    scan s lf none sk ("--help" :: rest) = ParseResult.exited (getUsage s.myname s.language)
  ∧ getUsage s.myname s.language ≠ "" :=
  ⟨rfl, getUsage_ne_empty _ _⟩

/-- Witness for C8: the amended theorem at a concrete state, with any tokens
after `--help` ignored. -/
theorem aidl_help_scan_exits_witness :
    scan (initOptions "aidl" Language.java) false none [] ["--help", "-z", "bogus"]
      = ParseResult.exited (getUsage "aidl" Language.java) :=
  (aidl_help_scan_exits (initOptions "aidl" Language.java) false [] ["-z", "bogus"]).1

/-- Counterexample for C8 as frozen: with caller default CPP the vector
`[--lang=java, --help]` contains `--help`, yet the `--lang` processed before
it records an error and returns, so construction neither prints usage nor
exits successfully. -/
theorem aidl_help_after_error_cex :
    (Options.parse "aidl" ["--lang=java", "--help"] Language.cpp).isExit = false
  ∧ (Options.parse "aidl" ["--lang=java", "--help"] Language.cpp).errorOf
      = "aidl-cpp does not support --lang.\n" := by
  exact ⟨by decide, by decide⟩

/-- C9: the legacy Java derived-output substitution replaces the five
characters at position `length - 5` blindly - for any input of length at
least five it succeeds without checking for the `.aidl` suffix (`Foo.txt`
becomes `Fo.java`), and for any shorter input the `size_t` position wraps
past the end of the string, so the whole construction aborts
(`std::out_of_range`): totality needs the length precondition. -/
theorem aidl_replace_needs_five_chars (s : String) :
    (5 ≤ s.data.length →
      replaceDotAidl s = some (String.mk (s.data.take (s.data.length - 5) ++ ".java".data)))
  ∧ (s.data.length < 5 → replaceDotAidl s = none)
  ∧ Options.parse "aidl" ["abc"] Language.java = ParseResult.crashed
  ∧ (Options.parse "aidl" ["Foo.txt"] Language.java).outputFileOf = "Fo.java" := by
  refine ⟨?_, ?_, by decide, by decide⟩
  · intro h; rw [replaceDotAidl, if_pos h]
  · intro h; rw [replaceDotAidl, if_neg (by omega)]

/-- Witness for C9: the substitution evaluated on a 7-character non-`.aidl`
path and on a 3-character path. -/
theorem aidl_replace_needs_five_chars_witness :
    replaceDotAidl "Foo.txt" = some "Fo.java" ∧ replaceDotAidl "abc" = none :=
  ⟨((aidl_replace_needs_five_chars "Foo.txt").1 (by decide)).trans (by decide),
    (aidl_replace_needs_five_chars "abc").2.1 (by decide)⟩

/-- C10: the values of `--lang`, `-I`, `-p`, `-d`, `-o` and `-h` are stored
(or, for `--lang`, compared) after whitespace trimming, while every
positional token - modern inputs, the non-COMPILE output file, and the legacy
input, output file and header directory - is stored verbatim. -/
theorem aidl_trim_flag_values_not_positionals (s : Options) (v t f hd outp o1 i1 : String)
    (rest : List String) (lf : Bool) :
    applyFlag s 'I' v t = FlagStep.ok { s with import_paths := s.import_paths ++ [trim v] }
  ∧ applyFlag s 'p' v t
      = FlagStep.ok { s with preprocessed_files := s.preprocessed_files ++ [trim v] }
  ∧ applyFlag s 'd' v t = FlagStep.ok { s with dependency_file := trim v }
  ∧ applyFlag s 'o' v t = FlagStep.ok { s with output_dir := trim v }
  ∧ applyFlag s 'h' v t = FlagStep.ok { s with output_header_dir := trim v }
  ∧ (s.language = Language.java → trim v = "java" →
      applyFlag s 'l' v t = FlagStep.ok { s with language := Language.java, task := Task.compile })
  ∧ (s.language = Language.java → trim v ≠ "java" → trim v ≠ "cpp" →
      applyFlag s 'l' v t
        = FlagStep.halt (addError s ("Unsupported language: '" ++ trim v ++ "'\n")))
  ∧ (s.task = Task.compile →
      finishParse s true (f :: rest)
        = ParseResult.conf (validate { s with input_files := s.input_files ++ f :: rest }))
  ∧ (s.task ≠ Task.compile →
      finishParse s lf (o1 :: i1 :: rest)
        = ParseResult.conf (validate
            { s with output_file := o1, input_files := s.input_files ++ i1 :: rest }))
  ∧ (s.task = Task.compile → s.language = Language.java →
      finishParse s false [f, o1]
        = ParseResult.conf { s with input_files := s.input_files ++ [f], output_file := o1 })
  ∧ (s.task = Task.compile → s.language = Language.cpp →
      finishParse s false [f, hd, outp]
        = ParseResult.conf { s with
            input_files := s.input_files ++ [f],
            output_header_dir := hd,
            output_file := outp }) := by
  refine ⟨rfl, rfl, rfl, rfl, rfl, ?_, ?_, ?_, ?_, ?_, ?_⟩
  · intro hj h1
    have he : applyFlag s 'l' v t = langFlagEffect s v := rfl
    rw [he, langFlagEffect, hj, if_neg (by decide), if_pos h1]
  · intro hj h1 h2
    have he : applyFlag s 'l' v t = langFlagEffect s v := rfl
    rw [he, langFlagEffect, hj, if_neg (by decide), if_neg h1, if_neg h2]
  · intro ht
    rw [finishParse.eq_def, if_neg (by simp), if_pos ht]
  · intro ht
    rw [finishParse.eq_def, if_neg (fun hh => ht hh.2), if_neg ht]
  · intro ht hj
    simp [finishParse, ht, hj, tooManyArgs]
  · intro ht hj
    simp [finishParse, ht, hj, tooManyArgs]

/-- Witness for C10: a value argument stored trimmed, next to a positional
output token stored verbatim (whitespace kept). -/
theorem aidl_trim_flag_values_not_positionals_witness :
    applyFlag (initOptions "aidl" Language.java) 'I' " dir " "-I"
      = FlagStep.ok { initOptions "aidl" Language.java with import_paths := ["dir"] }
  ∧ finishParse (initOptions "aidl" Language.java) false ["Foo.aidl", " out.java "]
      = ParseResult.conf { initOptions "aidl" Language.java with
          input_files := ["Foo.aidl"], output_file := " out.java " } := by
  constructor
  · exact ((aidl_trim_flag_values_not_positionals (initOptions "aidl" Language.java)
      " dir " "-I" "f" "h" "o" "o1" "i1" [] false).1).trans (by decide)
  · exact (((aidl_trim_flag_values_not_positionals (initOptions "aidl" Language.java)
      " dir " "-I" "Foo.aidl" "h" "o" " out.java " "i1" [] false).2.2.2.2.2.2.2.2.2.1)
        rfl rfl).trans (by decide)

end Aidl
